import Mathlib

/-!
Verification of the cached range-query helper (`FileTest.py`).

The program is shallowly embedded: the filesystem cache directory is a
finite association list from filenames to file contents, the external
source-query collaborator is a parameter (it may raise, return an absent
result, or return a table), and each Python function is translated into a
Lean function over that state.
-/

/-- A `Table` models a `pandas.DataFrame`: a list of rows.  The program
only ever inspects emptiness and passes tables through whole, so the cell
type is left as rows of strings. -/
abbrev Table := List (List String)

/-- Contents of one file in the cache directory: either a valid serialized
table (an `.xlsx` file that `pd.read_excel` deserializes to `t`), or raw
bytes that fail to deserialize (a corrupt artifact, or any non-artifact
file). -/
inductive FileData where
  | table (t : Table)
  | raw
deriving DecidableEq, Repr

/-- The cache directory: an association list from filename to content. -/
abbrev Dir := List (String × FileData)

/-- Look up a file by name (first match). -/
def Dir.lookup : Dir → String → Option FileData
  | [], _ => none
  | (n, fd) :: rest, name => if n = name then some fd else Dir.lookup rest name

/-- Create or overwrite the file `name` with content `fd`
(what `df.to_excel(file_path)` does on success). -/
def Dir.write : Dir → String → FileData → Dir
  | [], name, fd => [(name, fd)]
  | (n, fd0) :: rest, name, fd =>
      if n = name then (n, fd) :: rest else (n, fd0) :: Dir.write rest name fd

/-- Filesystem state seen by `query_data_with_cache`: whether the parent of
`cache_dir` exists, and the cache directory itself (`none` when absent). -/
structure FS where
  parentExists : Bool
  dir : Option Dir
deriving DecidableEq, Repr

/-- Look up a file of the cache directory inside an `FS` (absent directory
has no files). -/
def FS.lookupFile (fs : FS) (name : String) : Option FileData :=
  match fs.dir with
  | none => none
  | some d => d.lookup name

/-- The Source Query collaborator (`query_data_from_source`): may raise
(`Except.error`), return `None` (`Except.ok none`), or return a table,
possibly empty. -/
abbrev Source := String → String → Except Unit (Option Table)

/-- `c.isalnum() or c in (' ', '-', '_', '.')` from line 36/37 of
`FileTest.py` (ASCII alphanumerics; the modeled inputs are ASCII). -/
def isAllowedChar (c : Char) : Bool :=
  c.isAlphanum || c == ' ' || c == '-' || c == '_' || c == '.'

/-- `"".join(c for c in t if c.isalnum() or c in (' ', '-', '_', '.'))`. -/
def sanitizeTime (s : String) : String :=
  String.mk (s.data.filter isAllowedChar)

/-- `f"{safe_start_time}_{safe_end_time}.xlsx"` (lines 36-38). -/
def cacheFilename (startTime endTime : String) : String :=
  sanitizeTime startTime ++ "_" ++ sanitizeTime endTime ++ ".xlsx"

/-- Result of one `query_data_with_cache` call on an existing directory:
the returned value, the directory afterwards, whether the source
collaborator was invoked, and whether the artifact file was written. -/
structure QueryResult where
  result : Option Table
  dir : Dir
  sourceInvoked : Bool
  wrote : Bool
deriving DecidableEq, Repr

/-- Lines 52-72 of `FileTest.py`: invoke the source inside `try`; on a
non-`None` non-empty result attempt the artifact write (line 60; a failing
write, `writeOk = false`, is caught at line 62 and does not change the
returned value) and return the table; on `None`, an empty table, or a
raise, return `None` with nothing written. -/
def runSource (source : Source) (startTime endTime fname : String)
    (d : Dir) (writeOk : Bool) : QueryResult :=
  match source startTime endTime with
  | Except.error _ => ⟨none, d, true, false⟩
  | Except.ok none => ⟨none, d, true, false⟩
  | Except.ok (some df) =>
      if df.isEmpty then ⟨none, d, true, false⟩
      else if writeOk then ⟨some df, d.write fname (FileData.table df), true, true⟩
      else ⟨some df, d, true, false⟩

/-- Lines 36-72 of `FileTest.py`, after the directory exists: compute the
filename; if the file exists and `force_refresh` is false, try to read it
(line 45) — success returns the table at once, a corrupt file is caught at
line 48 and falls through; otherwise run the source query. -/
def queryD (source : Source) (startTime endTime : String) (d : Dir)
    (forceRefresh writeOk : Bool) : QueryResult :=
  let fname := cacheFilename startTime endTime
  match forceRefresh, d.lookup fname with
  | false, some (FileData.table df) => ⟨some df, d, false, false⟩
  | false, some FileData.raw => runSource source startTime endTime fname d writeOk
  | false, none => runSource source startTime endTime fname d writeOk
  | true, _ => runSource source startTime endTime fname d writeOk

/-- Observable outcome of `query_data_with_cache`: either an exception
propagated to the caller (only `cache_path.mkdir(exist_ok=True)` at line
33 can do that, being outside every `try`), or a returned value together
with the final filesystem and the invocation/write flags. -/
inductive QOutcome where
  | raised (fs : FS)
  | done (result : Option Table) (fs : FS) (sourceInvoked : Bool) (wrote : Bool)
deriving DecidableEq, Repr

def QOutcome.finalFS : QOutcome → FS
  | raised fs => fs
  | done _ fs _ _ => fs

def QOutcome.resultOf : QOutcome → Option Table
  | raised _ => none
  | done r _ _ _ => r

def QOutcome.isRaised : QOutcome → Bool
  | raised _ => true
  | done _ _ _ _ => false

def QOutcome.invokedSource : QOutcome → Bool
  | raised _ => false
  | done _ _ i _ => i

def QOutcome.wroteFile : QOutcome → Bool
  | raised _ => false
  | done _ _ _ w => w

/-- Lines 12-72 of `FileTest.py`.  `Path(cache_dir).mkdir(exist_ok=True)`
(line 33) succeeds when the directory already exists, creates it when only
the parent exists, and raises `FileNotFoundError` (uncaught) when the
parent is absent; then the body `queryD` runs. -/
def query_data_with_cache (source : Source) (startTime endTime : String)
    (fs : FS) (forceRefresh writeOk : Bool) : QOutcome :=
  match fs.dir with
  | some d =>
      let r := queryD source startTime endTime d forceRefresh writeOk
      QOutcome.done r.result ⟨fs.parentExists, some r.dir⟩ r.sourceInvoked r.wrote
  | none =>
      if fs.parentExists then
        let r := queryD source startTime endTime [] forceRefresh writeOk
        QOutcome.done r.result ⟨true, some r.dir⟩ r.sourceInvoked r.wrote
      else QOutcome.raised fs

/-- `startsWithChars pat s`: `pat` is a literal prefix of `s` (character
lists).  A plain string notion, used to state what the glob machinery
below does on metacharacter-free patterns. -/
def startsWithChars : List Char → List Char → Bool
  | [], _ => true
  | _ :: _, [] => false
  | p :: ps, c :: cs => p == c && startsWithChars ps cs

/-- `containsChars pat s`: `pat` occurs literally as a contiguous
substring of `s`. -/
def containsChars (pat : List Char) : List Char → Bool
  | [] => startsWithChars pat []
  | c :: cs => startsWithChars pat (c :: cs) || containsChars pat cs

/-- The plain substring test: `pat` occurs literally in `name`.  For
patterns free of glob metacharacters this coincides with matching the
glob `*{pat}*` (theorem `clearSelect_globFree`); for patterns with
metacharacters it does not, which is what refutes C10 as stated. -/
def strContainsSub (name pat : String) : Bool :=
  containsChars pat.data name.data

/-- The literal suffix test: `s` ends with `pat`.  Matching the fixed
glob `*.xlsx` coincides with ending in `.xlsx`
(theorem `matchesGlob_xlsx`). -/
def strEndsWith (s pat : String) : Bool :=
  startsWithChars pat.data.reverse s.data.reverse

/-!
### The glob matcher

`clear_cache` (line 133) selects files with `cache_path.glob(f"*{pattern}*")`
and `list_cache_files`/`clear_cache` (lines 135, 159) with
`cache_path.glob("*.xlsx")`.  For a single-component pattern (no `/`, as in
every pattern the repository forms) pathlib matches the filename with
fnmatch semantics: `*` matches any character sequence including the empty
one and leading dots, `?` matches any single character, `[...]` matches a
character class with ranges and `[!...]` its complement, an unterminated
`[` is a literal bracket, and any other character matches itself, the
whole pattern matching the whole name (POSIX: case-sensitive).  Before
matching, pathlib validates the pattern: a component containing `**` as a
proper part raises `ValueError`, uncaught by `clear_cache`.
-/

/-- One member of a `[...]` character class: a single character or a
`lo-hi` range (ranges are taken as the closed code-point interval, empty
when `lo > hi`). -/
inductive ClsItem where
  | one (c : Char)
  | range (lo hi : Char)
deriving DecidableEq, Repr

/-- One parsed fnmatch token. -/
inductive GlobTok where
  | lit (c : Char)
  | anyOne
  | anySeq
  | cls (neg : Bool) (items : List ClsItem)
deriving DecidableEq, Repr

def clsItemMatch (c : Char) : ClsItem → Bool
  | ClsItem.one x => c == x
  | ClsItem.range lo hi => decide (lo ≤ c) && decide (c ≤ hi)

def clsMatch (neg : Bool) (items : List ClsItem) (c : Char) : Bool :=
  if neg then !(items.any (clsItemMatch c)) else items.any (clsItemMatch c)

/-- Split a class body at its closing `]`: contents before it and the
remainder after it, or `none` when the class is unterminated. -/
def splitAtRBracket : List Char → Option (List Char × List Char)
  | [] => none
  | ']' :: rest => some ([], rest)
  | c :: rest =>
      match splitAtRBracket rest with
      | some (a, b) => some (c :: a, b)
      | none => none

/-- Scan a `[...]` class from the characters after the `[`: an optional
leading `!` negates, a `]` directly after that is a literal member, and
the class ends at the next `]` (fnmatch's scan). -/
def scanCls (cs : List Char) : Option (Bool × List Char × List Char) :=
  let (neg, cs1) :=
    match cs with
    | '!' :: rest => (true, rest)
    | _ => (false, cs)
  match cs1 with
  | ']' :: rest =>
      match splitAtRBracket rest with
      | some (a, b) => some (neg, ']' :: a, b)
      | none => none
  | _ =>
      match splitAtRBracket cs1 with
      | some (a, b) => some (neg, a, b)
      | none => none

/-- Class contents: `x-y` is a range (a `-` first or last is literal,
as in a regex character class). -/
def parseItems : List Char → List ClsItem
  | [] => []
  | x :: '-' :: y :: rest => ClsItem.range x y :: parseItems rest
  | x :: rest => ClsItem.one x :: parseItems rest

/-- Fuel-driven tokenizer for an fnmatch pattern (each step consumes at
least one character, so fuel = length always suffices). -/
def parseGlobAux : Nat → List Char → List GlobTok
  | 0, _ => []
  | _ + 1, [] => []
  | fuel + 1, c :: rest =>
      if c = '*' then GlobTok.anySeq :: parseGlobAux fuel rest
      else if c = '?' then GlobTok.anyOne :: parseGlobAux fuel rest
      else if c = '[' then
        match scanCls rest with
        | some (neg, stuff, rem) =>
            GlobTok.cls neg (parseItems stuff) :: parseGlobAux fuel rem
        | none => GlobTok.lit '[' :: parseGlobAux fuel rest
      else GlobTok.lit c :: parseGlobAux fuel rest

def parseGlob (cs : List Char) : List GlobTok :=
  parseGlobAux cs.length cs

/-- Match a token list against a character list, the whole of both
(fnmatch is a full match): `anySeq` tries every split. -/
def globMatch : List GlobTok → List Char → Bool
  | [], s => s.isEmpty
  | GlobTok.anySeq :: ps, s =>
      (List.range (s.length + 1)).any (fun k => globMatch ps (s.drop k))
  | GlobTok.anyOne :: _, [] => false
  | GlobTok.anyOne :: ps, _ :: s => globMatch ps s
  | GlobTok.lit _ :: _, [] => false
  | GlobTok.lit c :: ps, c2 :: s => c == c2 && globMatch ps s
  | GlobTok.cls _ _ :: _, [] => false
  | GlobTok.cls neg items :: ps, c2 :: s =>
      clsMatch neg items c2 && globMatch ps s

/-- `name` matches the glob pattern `pat` (single path component). -/
def matchesGlob (pat : String) (name : String) : Bool :=
  globMatch (parseGlob pat.data) name.data

/-- Two adjacent `*` occur somewhere (pathlib's invalid-pattern check:
`**` inside a glob component raises `ValueError`). -/
def hasDoubleStar : List Char → Bool
  | [] => false
  | [_] => false
  | c1 :: c2 :: rest => (c1 == '*' && c2 == '*') || hasDoubleStar (c2 :: rest)

/-- The argument `clear_cache` hands to `glob` (lines 131-135):
`f"*{pattern}*"` for a truthy pattern, `"*.xlsx"` otherwise (`if pattern:`
is Python truthiness, so `None` and the empty string both take the
`*.xlsx` branch). -/
def globArg (pattern : Option String) : String :=
  match pattern with
  | some p => if p = "" then ("*.xlsx") else ("*") ++ p ++ ("*")
  | none => ("*.xlsx")

/-- Which filenames `clear_cache` selects for deletion: the ones matching
its glob argument. -/
def clearSelect (pattern : Option String) (name : String) : Bool :=
  matchesGlob (globArg pattern) name

/-- A character the glob layer treats specially: a wildcard (`*`, `?`),
a class opener (`[`), or the path separator (`/`, which would make the
pattern multi-component). -/
def isGlobSpecial (c : Char) : Bool :=
  c == '*' || c == '?' || c == '[' || c == '/'

/-- The pattern contains no glob-special character, so the glob `*{p}*`
selects exactly by literal substring containment
(theorem `clearSelect_globFree`). -/
def globFree (p : String) : Bool :=
  !(p.data.any isGlobSpecial)

/-- Observable outcome of `clear_cache`: the `ValueError` raised by an
invalid glob pattern propagates (nothing deleted), otherwise the directory
after the deletion loop. -/
inductive ClearOutcome where
  | raised (dir : Option Dir)
  | done (dir : Option Dir)
deriving DecidableEq, Repr

def ClearOutcome.dirOf : ClearOutcome → Option Dir
  | raised d => d
  | done d => d

def ClearOutcome.didRaise : ClearOutcome → Bool
  | raised _ => true
  | done _ => false

/-- Lines 118-142 of `FileTest.py`: absent directory returns at once
(before the glob, so even an invalid pattern cannot raise then); an
invalid glob argument (containing `**`) raises; otherwise every selected
file is unlinked inside its own `try`, so one failing unlink
(`unlinkOk name = false`) leaves that file and the loop continues with
the rest. -/
def clear_cache (dir : Option Dir) (pattern : Option String)
    (unlinkOk : String → Bool) : ClearOutcome :=
  match dir with
  | none => ClearOutcome.done none
  | some d =>
      if hasDoubleStar (globArg pattern).data then ClearOutcome.raised (some d)
      else ClearOutcome.done
        (some (d.filter (fun e => !(clearSelect pattern e.1 && unlinkOk e.1))))

/-- Lines 145-159 of `FileTest.py`: `[]` for an absent directory, else the
names matching the glob `*.xlsx`. -/
def list_cache_files (dir : Option Dir) : List String :=
  match dir with
  | none => []
  | some d => (d.filter (fun e => matchesGlob ("*.xlsx") e.1)).map (fun e => e.1)

/-- Look up a file in an optional directory (used to state what `clear`
left behind). -/
def lookupOptD : Option Dir → String → Option FileData
  | none, _ => none
  | some d, name => d.lookup name


/-- Modelled from the spec: the CacheKey as section 3 words it — strip
characters outside the allow-list (alphanumeric, space, hyphen,
underscore, dot) from each endpoint and concatenate as `"{start}_{end}"`.
Used only to compare the source-derived `cacheFilename` against the
spec's wording. -/
def specCacheKey (startTime endTime : String) : String :=
  String.mk (startTime.data.filter
      (fun c => c.isAlphanum || c == ' ' || c == '-' || c == '_' || c == '.'))
    ++ "_" ++
  String.mk (endTime.data.filter
      (fun c => c.isAlphanum || c == ' ' || c == '-' || c == '_' || c == '.'))

/-- C6: the derived CacheKey is exactly the spec's allow-list filter of the
two endpoints joined by an underscore (the artifact filename appends
`.xlsx`), and for `start = "a/b:c"`, `end = "d?e"` the derived filename
contains no `/`, `:` or `?`. -/
theorem C6_cache_key_sanitization :
    (∀ s e : String, cacheFilename s e = specCacheKey s e ++ (".xlsx"))
    ∧ ('/' ∉ (cacheFilename ("a/b:c") ("d?e")).data
        ∧ ':' ∉ (cacheFilename ("a/b:c") ("d?e")).data
        ∧ '?' ∉ (cacheFilename ("a/b:c") ("d?e")).data) :=
  ⟨fun _ _ => rfl, by decide⟩

/-! ### Basic lemmas about the directory model -/

theorem Dir.lookup_write_self (d : Dir) (fname : String) (fd : FileData) :
    (d.write fname fd).lookup fname = some fd := by
  induction d with
  | nil => simp [Dir.write, Dir.lookup]
  | cons hd tl ih =>
      rcases hd with ⟨n, fd0⟩
      by_cases hn : n = fname
      · simp [Dir.write, Dir.lookup, hn]
      · simp [Dir.write, Dir.lookup, hn, ih]

theorem Dir.lookup_write_ne (d : Dir) (fname name : String) (fd : FileData)
    (h : name ≠ fname) :
    (d.write fname fd).lookup name = d.lookup name := by
  induction d with
  | nil =>
      simp only [Dir.write, Dir.lookup]
      rw [if_neg (fun hc => h hc.symm)]
  | cons hd tl ih =>
      rcases hd with ⟨n, fd0⟩
      by_cases hn : n = fname
      · subst hn
        simp only [Dir.write, if_pos rfl, Dir.lookup]
        rw [if_neg (fun hc : n = name => h hc.symm), if_neg (fun hc : n = name => h hc.symm)]
      · simp only [Dir.write, if_neg hn, Dir.lookup, ih]

theorem runSource_sourceInvoked (source : Source) (s e fn : String) (d : Dir) (w : Bool) :
    (runSource source s e fn d w).sourceInvoked = true := by
  unfold runSource
  cases hs : source s e with
  | error u => rfl
  | ok ot =>
      cases ot with
      | none => rfl
      | some df =>
          by_cases hE : df.isEmpty <;> by_cases hw : w <;> simp [hE, hw]

/-- When the source raises, returns `None`, or returns only an empty
table, the fallback produces `None` and leaves the directory untouched. -/
theorem runSource_bad (source : Source) (s e fn : String) (d : Dir) (w : Bool)
    (hsrc : ∀ t : Table, source s e = Except.ok (some t) → t = []) :
    runSource source s e fn d w = ⟨none, d, true, false⟩ := by
  unfold runSource
  cases hs : source s e with
  | error u => rfl
  | ok ot =>
      cases ot with
      | none => rfl
      | some df =>
          have hd : df = [] := hsrc df hs
          subst hd
          rfl

/-- C2: with `force_refresh` false and a valid artifact present, the call
returns the deserialized table at once, invokes no source query, writes
nothing, and leaves the filesystem unchanged. -/
theorem C2_cache_hit_skips_source (source : Source) (s e : String) (d : Dir)
    (pe writeOk : Bool) (t : Table)
    (h : d.lookup (cacheFilename s e) = some (FileData.table t)) :
    query_data_with_cache source s e ⟨pe, some d⟩ false writeOk
      = QOutcome.done (some t) ⟨pe, some d⟩ false false := by
  simp [query_data_with_cache, queryD, h]

theorem C2_witness :
    Dir.lookup [((cacheFilename ("a") ("b")), FileData.table [[("x")]])] (cacheFilename ("a") ("b"))
        = some (FileData.table [[("x")]])
    ∧ query_data_with_cache (fun _ _ => Except.error ()) ("a") ("b")
        ⟨true, some [((cacheFilename ("a") ("b")), FileData.table [[("x")]])]⟩ false true
      = QOutcome.done (some [[("x")]])
          ⟨true, some [((cacheFilename ("a") ("b")), FileData.table [[("x")]])]⟩ false false :=
  ⟨by decide, C2_cache_hit_skips_source _ _ _ _ _ _ _ (by decide)⟩

/-- C3: with `force_refresh` true (and the cache directory present) the
source query is always invoked, even when a valid artifact exists; and
when the source returns a non-empty table and the write succeeds, the
table is returned and the artifact is overwritten with it. -/
theorem C3_force_refresh_bypasses_cache (source : Source) (s e : String)
    (d : Dir) (pe w : Bool) :
    (query_data_with_cache source s e ⟨pe, some d⟩ true w).invokedSource = true
    ∧ (∀ t : Table, source s e = Except.ok (some t) → t ≠ [] →
        query_data_with_cache source s e ⟨pe, some d⟩ true true
          = QOutcome.done (some t)
              ⟨pe, some (d.write (cacheFilename s e) (FileData.table t))⟩ true true) := by
  constructor
  · simp [query_data_with_cache, queryD, QOutcome.invokedSource,
      runSource_sourceInvoked]
  · intro t ht hne
    have hE : t.isEmpty = false := by
      cases t with
      | nil => exact absurd rfl hne
      | cons a l => rfl
    simp [query_data_with_cache, queryD, runSource, ht, hE]

theorem C3_witness :
    (query_data_with_cache (fun _ _ => Except.ok (some [[("v")]])) ("a") ("b")
        ⟨true, some [((cacheFilename ("a") ("b")), FileData.table [[("old")]])]⟩ true true).invokedSource = true
    ∧ query_data_with_cache (fun _ _ => Except.ok (some [[("v")]])) ("a") ("b")
        ⟨true, some [((cacheFilename ("a") ("b")), FileData.table [[("old")]])]⟩ true true
      = QOutcome.done (some [[("v")]])
          ⟨true, some (Dir.write [((cacheFilename ("a") ("b")), FileData.table [[("old")]])]
              (cacheFilename ("a") ("b")) (FileData.table [[("v")]]))⟩ true true :=
  ⟨(C3_force_refresh_bypasses_cache (fun _ _ => Except.ok (some [[("v")]])) ("a") ("b")
      [((cacheFilename ("a") ("b")), FileData.table [[("old")]])] true true).1,
   (C3_force_refresh_bypasses_cache (fun _ _ => Except.ok (some [[("v")]])) ("a") ("b")
      [((cacheFilename ("a") ("b")), FileData.table [[("old")]])] true true).2
     [[("v")]] rfl (by decide)⟩

/-- C4: when the artifact exists but is corrupt and `force_refresh` is
false, the call does not raise, invokes the source, leaves the corrupt
file present (possibly overwritten, never deleted), and returns the
source's non-empty table when the source succeeds. -/
theorem C4_corrupt_cache_falls_back (source : Source) (s e : String) (d : Dir)
    (pe w : Bool)
    (h : d.lookup (cacheFilename s e) = some FileData.raw) :
    (query_data_with_cache source s e ⟨pe, some d⟩ false w).isRaised = false
    ∧ (query_data_with_cache source s e ⟨pe, some d⟩ false w).invokedSource = true
    ∧ ((query_data_with_cache source s e ⟨pe, some d⟩ false w).finalFS.lookupFile
        (cacheFilename s e)).isSome = true
    ∧ (∀ t : Table, source s e = Except.ok (some t) → t ≠ [] →
        (query_data_with_cache source s e ⟨pe, some d⟩ false w).resultOf = some t) := by
  refine ⟨?_, ?_, ?_, ?_⟩
  · simp [query_data_with_cache, queryD, h, QOutcome.isRaised]
  · simp [query_data_with_cache, queryD, h, QOutcome.invokedSource,
      runSource_sourceInvoked]
  · simp only [query_data_with_cache, queryD, h, QOutcome.finalFS, FS.lookupFile]
    unfold runSource
    cases hs : source s e with
    | error u => simp [h]
    | ok ot =>
        cases ot with
        | none => simp [h]
        | some df =>
            by_cases hE : df.isEmpty <;> by_cases hw : w <;>
              simp [hE, hw, h, Dir.lookup_write_self]
  · intro t ht hne
    have hE : t.isEmpty = false := by
      cases t with
      | nil => exact absurd rfl hne
      | cons a l => rfl
    cases w <;> simp [query_data_with_cache, queryD, h, runSource, ht, hE,
      QOutcome.resultOf]

theorem C4_witness :
    (query_data_with_cache (fun _ _ => Except.ok (some [[("v")]])) ("a") ("b")
        ⟨true, some [((cacheFilename ("a") ("b")), FileData.raw)]⟩ false true).isRaised = false
    ∧ (query_data_with_cache (fun _ _ => Except.ok (some [[("v")]])) ("a") ("b")
        ⟨true, some [((cacheFilename ("a") ("b")), FileData.raw)]⟩ false true).invokedSource = true
    ∧ ((query_data_with_cache (fun _ _ => Except.ok (some [[("v")]])) ("a") ("b")
        ⟨true, some [((cacheFilename ("a") ("b")), FileData.raw)]⟩ false true).finalFS.lookupFile
          (cacheFilename ("a") ("b"))).isSome = true
    ∧ (query_data_with_cache (fun _ _ => Except.ok (some [[("v")]])) ("a") ("b")
        ⟨true, some [((cacheFilename ("a") ("b")), FileData.raw)]⟩ false true).resultOf
        = some [[("v")]] :=
  have hc := C4_corrupt_cache_falls_back (fun _ _ => Except.ok (some [[("v")]]))
    ("a") ("b") [((cacheFilename ("a") ("b")), FileData.raw)] true true (by decide)
  ⟨hc.1, hc.2.1, hc.2.2.1, hc.2.2.2 [[("v")]] rfl (by decide)⟩

/-- C5: when the source raises, returns `None`, or returns an empty table,
and the call reaches the source (forced refresh, missing artifact, or
corrupt artifact), it returns `None` and writes no artifact, leaving the
directory unchanged. -/
theorem C5_no_write_on_failure_or_empty (source : Source) (s e : String)
    (d : Dir) (pe force w : Bool)
    (hsrc : ∀ t : Table, source s e = Except.ok (some t) → t = [])
    (hmiss : force = true ∨ d.lookup (cacheFilename s e) = none
        ∨ d.lookup (cacheFilename s e) = some FileData.raw) :
    query_data_with_cache source s e ⟨pe, some d⟩ force w
      = QOutcome.done none ⟨pe, some d⟩ true false := by
  have hrs := runSource_bad source s e (cacheFilename s e) d w hsrc
  rcases hmiss with hf | hm | hm
  · subst hf
    simp [query_data_with_cache, queryD, hrs]
  · simp [query_data_with_cache, queryD, hm, hrs]
    cases force <;> simp [hrs]
  · simp [query_data_with_cache, queryD, hm, hrs]
    cases force <;> simp [hrs]

theorem C5_witness :
    query_data_with_cache (fun _ _ => Except.ok (some [])) ("a") ("b")
        ⟨true, some []⟩ true true
      = QOutcome.done none ⟨true, some []⟩ true false :=
  C5_no_write_on_failure_or_empty (fun _ _ => Except.ok (some [])) ("a") ("b")
    [] true true true
    (fun _ ht => (Option.some.inj (Except.ok.inj ht)).symm)
    (Or.inl rfl)

/-! ### Frame and idempotence lemmas for the query -/

/-- The fallback never touches any file other than the artifact. -/
theorem runSource_frame (source : Source) (s e fn : String) (d : Dir)
    (w : Bool) (name : String) (h : name ≠ fn) :
    ((runSource source s e fn d w).dir).lookup name = d.lookup name := by
  unfold runSource
  cases hs : source s e with
  | error u => rfl
  | ok ot =>
      cases ot with
      | none => rfl
      | some df =>
          by_cases hE : df.isEmpty <;> by_cases hw : w <;>
            simp [hE, hw, Dir.lookup_write_ne _ _ _ _ h]


/-- One call never touches any file other than the artifact. -/
theorem queryD_frame (source : Source) (s e : String) (d : Dir)
    (force w : Bool) (name : String) (h : name ≠ cacheFilename s e) :
    ((queryD source s e d force w).dir).lookup name = d.lookup name := by
  have hrs := runSource_frame source s e (cacheFilename s e) d w name h
  cases force with
  | true =>
      have h1 : queryD source s e d true w
          = runSource source s e (cacheFilename s e) d w := by
        simp [queryD]
      rw [h1]
      exact hrs
  | false =>
      cases hl : d.lookup (cacheFilename s e) with
      | none =>
          have h1 : queryD source s e d false w
              = runSource source s e (cacheFilename s e) d w := by
            simp [queryD, hl]
          rw [h1]
          exact hrs
      | some fd =>
          cases fd with
          | table t => simp [queryD, hl]
          | raw =>
              have h1 : queryD source s e d false w
                  = runSource source s e (cacheFilename s e) d w := by
                simp [queryD, hl]
              rw [h1]
              exact hrs

/-- C9: the only filesystem effects of a call are possibly creating the
cache directory and possibly writing the single artifact file at the
derived CacheKey path — every other filename maps to the same content
before and after, in every input state. -/
theorem C9_single_file_frame (source : Source) (s e : String) (fs : FS)
    (force w : Bool) (name : String) (h : name ≠ cacheFilename s e) :
    (query_data_with_cache source s e fs force w).finalFS.lookupFile name
      = fs.lookupFile name := by
  rcases fs with ⟨pe, dir⟩
  cases dir with
  | some d =>
      have h0 : query_data_with_cache source s e ⟨pe, some d⟩ force w
          = QOutcome.done (queryD source s e d force w).result
              ⟨pe, some (queryD source s e d force w).dir⟩
              (queryD source s e d force w).sourceInvoked
              (queryD source s e d force w).wrote := rfl
      rw [h0]
      show ((queryD source s e d force w).dir).lookup name = d.lookup name
      exact queryD_frame source s e d force w name h
  | none =>
      cases pe with
      | false => rfl
      | true =>
          have h0 : query_data_with_cache source s e ⟨true, none⟩ force w
              = QOutcome.done (queryD source s e [] force w).result
                  ⟨true, some (queryD source s e [] force w).dir⟩
                  (queryD source s e [] force w).sourceInvoked
                  (queryD source s e [] force w).wrote := rfl
          rw [h0]
          show ((queryD source s e [] force w).dir).lookup name
            = FS.lookupFile ⟨true, none⟩ name
          rw [queryD_frame source s e [] force w name h]
          rfl

theorem C9_witness :
    (query_data_with_cache (fun _ _ => Except.ok (some [[("v")]])) ("a") ("b")
        ⟨true, some [(("other.txt"), FileData.raw)]⟩ false true).finalFS.lookupFile ("other.txt")
      = FS.lookupFile ⟨true, some [(("other.txt"), FileData.raw)]⟩ ("other.txt") :=
  C9_single_file_frame (fun _ _ => Except.ok (some [[("v")]])) ("a") ("b")
    ⟨true, some [(("other.txt"), FileData.raw)]⟩ false true ("other.txt") (by decide)

/-- Running the body a second time on the directory the first call left
behind returns the same value, leaves the directory unchanged, and writes
nothing (reliable writes, fixed source). -/
theorem queryD_second_call (source : Source) (s e : String) (d : Dir) :
    (queryD source s e (queryD source s e d false true).dir false true).result
        = (queryD source s e d false true).result
    ∧ (queryD source s e (queryD source s e d false true).dir false true).dir
        = (queryD source s e d false true).dir
    ∧ (queryD source s e (queryD source s e d false true).dir false true).wrote
        = false := by
  cases hl : d.lookup (cacheFilename s e) with
  | some fd =>
      cases fd with
      | table t =>
          have h1 : queryD source s e d false true = ⟨some t, d, false, false⟩ := by
            simp [queryD, hl]
          simp [h1, queryD, hl]
      | raw =>
          cases hs : source s e with
          | error u =>
              have h1 : queryD source s e d false true = ⟨none, d, true, false⟩ := by
                simp [queryD, hl, runSource, hs]
              simp [h1]
          | ok ot =>
              cases ot with
              | none =>
                  have h1 : queryD source s e d false true = ⟨none, d, true, false⟩ := by
                    simp [queryD, hl, runSource, hs]
                  simp [h1]
              | some df =>
                  by_cases hE : df.isEmpty
                  · have h1 : queryD source s e d false true = ⟨none, d, true, false⟩ := by
                      simp [queryD, hl, runSource, hs, hE]
                    simp [h1]
                  · have h1 : queryD source s e d false true
                        = ⟨some df, d.write (cacheFilename s e) (FileData.table df),
                            true, true⟩ := by
                      simp [queryD, hl, runSource, hs, hE]
                    have h2 : queryD source s e
                        (d.write (cacheFilename s e) (FileData.table df)) false true
                        = ⟨some df, d.write (cacheFilename s e) (FileData.table df),
                            false, false⟩ := by
                      simp [queryD, Dir.lookup_write_self]
                    simp [h1, h2]
  | none =>
      cases hs : source s e with
      | error u =>
          have h1 : queryD source s e d false true = ⟨none, d, true, false⟩ := by
            simp [queryD, hl, runSource, hs]
          simp [h1]
      | ok ot =>
          cases ot with
          | none =>
              have h1 : queryD source s e d false true = ⟨none, d, true, false⟩ := by
                simp [queryD, hl, runSource, hs]
              simp [h1]
          | some df =>
              by_cases hE : df.isEmpty
              · have h1 : queryD source s e d false true = ⟨none, d, true, false⟩ := by
                  simp [queryD, hl, runSource, hs, hE]
                simp [h1]
              · have h1 : queryD source s e d false true
                    = ⟨some df, d.write (cacheFilename s e) (FileData.table df),
                        true, true⟩ := by
                  simp [queryD, hl, runSource, hs, hE]
                have h2 : queryD source s e
                    (d.write (cacheFilename s e) (FileData.table df)) false true
                    = ⟨some df, d.write (cacheFilename s e) (FileData.table df),
                        false, false⟩ := by
                  simp [queryD, Dir.lookup_write_self]
                simp [h1, h2]

/-- C1 as stated is false: with a source query that raises, two non-forced
calls on an empty cache directory both return `None` and perform zero
artifact writes — not "exactly one artifact write on the first call". -/
theorem C1_counterexample :
    (query_data_with_cache (fun _ _ => Except.error ()) ("a") ("b")
        ⟨true, some []⟩ false true).wroteFile = false
    ∧ (query_data_with_cache (fun _ _ => Except.error ()) ("a") ("b")
        ((query_data_with_cache (fun _ _ => Except.error ()) ("a") ("b")
            ⟨true, some []⟩ false true).finalFS) false true).wroteFile = false :=
  ⟨rfl, rfl⟩

/-- C1 amended: two non-forced calls with the same range and directory,
reliable writes and a fixed source return the same result both times, the
second call performs no artifact write, and the filesystem does not change
after the first call (so any artifact write happens on the first call
only; no write at all happens when the source fails or returns empty, or
when a valid artifact already existed). -/
theorem C1_amended_idempotent_requery (source : Source) (s e : String)
    (d : Dir) (pe : Bool) :
    (query_data_with_cache source s e
        ((query_data_with_cache source s e ⟨pe, some d⟩ false true).finalFS)
        false true).resultOf
      = (query_data_with_cache source s e ⟨pe, some d⟩ false true).resultOf
    ∧ (query_data_with_cache source s e
        ((query_data_with_cache source s e ⟨pe, some d⟩ false true).finalFS)
        false true).wroteFile = false
    ∧ (query_data_with_cache source s e
        ((query_data_with_cache source s e ⟨pe, some d⟩ false true).finalFS)
        false true).finalFS
      = (query_data_with_cache source s e ⟨pe, some d⟩ false true).finalFS := by
  have h1 : ∀ d2 : Dir, query_data_with_cache source s e ⟨pe, some d2⟩ false true
      = QOutcome.done (queryD source s e d2 false true).result
          ⟨pe, some (queryD source s e d2 false true).dir⟩
          (queryD source s e d2 false true).sourceInvoked
          (queryD source s e d2 false true).wrote := fun d2 => rfl
  rcases queryD_second_call source s e d with ⟨hr, hd, hw⟩
  rw [h1 d]
  simp only [QOutcome.finalFS]
  rw [h1 (queryD source s e d false true).dir]
  simp only [QOutcome.resultOf, QOutcome.wroteFile, QOutcome.finalFS]
  exact ⟨hr, hw, by rw [hd]⟩

/-- C8 as stated is false: directory creation happens outside every `try`,
so calling `query` with a `cache_dir` whose parent does not exist
propagates the `mkdir` exception to the caller instead of returning a
sentinel. -/
theorem C8_counterexample :
    query_data_with_cache (fun _ _ => Except.error ()) ("a") ("b")
        ⟨false, none⟩ false true
      = QOutcome.raised ⟨false, none⟩ :=
  rfl

/-- C8 amended: failures inside cache read, source query, artifact write
and per-file deletion are caught and converted to logged sentinels, and
`list`/`clear` return their sentinels on an absent directory (`clear`
returns before its glob runs, so not even an invalid pattern raises
then); `query`'s cache-directory creation runs outside every handler, so
`query` raises exactly when the cache directory is absent and its parent
is absent too (`clear`'s glob-argument validation on an existing
directory is the other uncaught spot, exhibited below at the pattern
`*`). -/
theorem C8_amended_boundary_except_mkdir (source : Source) (s e : String)
    (fs : FS) (force w : Bool) (p : Option String) (u : String → Bool) :
    ((query_data_with_cache source s e fs force w).isRaised = true
        ↔ (fs.dir = none ∧ fs.parentExists = false))
    ∧ list_cache_files none = []
    ∧ clear_cache none p u = ClearOutcome.done none := by
  refine ⟨?_, rfl, rfl⟩
  rcases fs with ⟨pe, dir⟩
  cases dir with
  | some d =>
      have h0 : query_data_with_cache source s e ⟨pe, some d⟩ force w
          = QOutcome.done (queryD source s e d force w).result
              ⟨pe, some (queryD source s e d force w).dir⟩
              (queryD source s e d force w).sourceInvoked
              (queryD source s e d force w).wrote := rfl
      rw [h0]
      simp [QOutcome.isRaised]
  | none =>
      cases pe with
      | true =>
          have h0 : query_data_with_cache source s e ⟨true, none⟩ force w
              = QOutcome.done (queryD source s e [] force w).result
                  ⟨true, some (queryD source s e [] force w).dir⟩
                  (queryD source s e [] force w).sourceInvoked
                  (queryD source s e [] force w).wrote := rfl
          rw [h0]
          simp [QOutcome.isRaised]
      | false =>
          have h0 : query_data_with_cache source s e ⟨false, none⟩ force w
              = QOutcome.raised ⟨false, none⟩ := rfl
          rw [h0]
          simp [QOutcome.isRaised]

/-! ### Lemmas about `clear_cache` and `list_cache_files` -/

theorem Dir.lookup_filterSel (d : Dir) (sel : String → Bool) (name : String) :
    Dir.lookup (d.filter (fun x => !(sel x.1))) name
      = if sel name = true then none else d.lookup name := by
  induction d with
  | nil => cases hsel : sel name <;> simp [Dir.lookup, hsel]
  | cons hd tl ih =>
      rcases hd with ⟨n, fd⟩
      by_cases hseln : sel n
      · by_cases hnm : n = name
        · subst hnm
          simp [List.filter, hseln, Dir.lookup, ih]
        · simp [List.filter, hseln, Dir.lookup, hnm, ih]
      · by_cases hnm : n = name
        · subst hnm
          simp [List.filter, hseln, Dir.lookup, ih]
        · simp [List.filter, hseln, Dir.lookup, hnm, ih]

theorem filter_map_fst_comm (d : Dir) (sel : String → Bool) (q : String → Bool) :
    ((d.filter (fun x => !(sel x.1))).filter (fun x => q x.1)).map (fun x => x.1)
      = ((d.filter (fun x => q x.1)).map (fun x => x.1)).filter (fun n => !(sel n)) := by
  induction d with
  | nil => rfl
  | cons hd tl ih =>
      by_cases hs1 : sel hd.1 <;> by_cases hq : q hd.1 <;>
        simp [List.filter_cons, hs1, hq, ih, -List.filter_filter]

/-! ### Bridges between the glob matcher and the plain string tests -/

theorem startsWithChars_iff_append (p : List Char) :
    ∀ s : List Char, startsWithChars p s = true ↔ ∃ t, s = p ++ t := by
  induction p with
  | nil =>
      intro s
      simp [startsWithChars]
  | cons c p ih =>
      intro s
      cases s with
      | nil =>
          simp [startsWithChars]
      | cons c2 s2 =>
          simp only [startsWithChars, Bool.and_eq_true, beq_iff_eq, ih,
            List.cons_append, List.cons.injEq]
          constructor
          · rintro ⟨rfl, t, rfl⟩
            exact ⟨t, rfl, rfl⟩
          · rintro ⟨t, rfl, rfl⟩
            exact ⟨rfl, t, rfl⟩

theorem globMatch_lits_iff (L : List Char) :
    ∀ s : List Char, globMatch (L.map GlobTok.lit) s = true ↔ s = L := by
  induction L with
  | nil =>
      intro s
      cases s <;> simp [globMatch]
  | cons c L ih =>
      intro s
      cases s with
      | nil => simp [globMatch]
      | cons c2 s2 =>
          simp [globMatch, ih, List.cons.injEq, eq_comm (a := c)]

theorem anyRange_iff (n : Nat) (f : Nat → Bool) :
    (List.range (n + 1)).any f = true ↔ ∃ k, k ≤ n ∧ f k = true := by
  simp [List.any_eq_true, List.mem_range, Nat.lt_succ_iff]

/-- A literal run followed by a final `*` matches `t` exactly when the
run is a literal prefix of `t`. -/
theorem globMatch_litsStar (L : List Char) :
    ∀ t : List Char, globMatch (L.map GlobTok.lit ++ [GlobTok.anySeq]) t
      = startsWithChars L t := by
  induction L with
  | nil =>
      intro t
      show globMatch [GlobTok.anySeq] t = true
      rw [globMatch]
      rw [anyRange_iff]
      exact ⟨t.length, Nat.le_refl _, by simp [List.drop_length, globMatch]⟩
  | cons c L ih =>
      intro t
      cases t with
      | nil => simp [globMatch, startsWithChars]
      | cons c2 t2 => simp [globMatch, startsWithChars, ih]

/-- Substring containment, phrased as "some suffix has it as a prefix". -/
theorem contains_eq_anyDrop (L : List Char) :
    ∀ s : List Char, containsChars L s
      = (List.range (s.length + 1)).any (fun k => startsWithChars L (s.drop k)) := by
  intro s
  induction s with
  | nil => simp [containsChars, List.range_succ]
  | cons c s2 ih =>
      rw [containsChars, ih]
      conv_rhs => rw [List.length_cons, List.range_succ_eq_map, List.any_cons,
        List.any_map]
      simp [Function.comp_def, List.drop_succ_cons]

theorem bool_eq_of_iff {a b : Bool} (h : a = true ↔ b = true) : a = b := by
  cases a <;> cases b <;> simp_all

theorem data_ne_nil_of_ne_empty (p : String) (hp : p ≠ "") : p.data ≠ [] := by
  intro hd
  apply hp
  cases p
  simp_all

/-- A leading `*` over a literal run matches exactly the strings with the
run as a contiguous part: `* lits *` is literal substring containment. -/
theorem globMatch_starWrap (L s : List Char) :
    globMatch (GlobTok.anySeq :: (L.map GlobTok.lit ++ [GlobTok.anySeq])) s
      = containsChars L s := by
  show (List.range (s.length + 1)).any
      (fun k => globMatch (L.map GlobTok.lit ++ [GlobTok.anySeq]) (s.drop k))
    = containsChars L s
  rw [contains_eq_anyDrop]
  simp only [globMatch_litsStar]

theorem dropEx_iff_append (L s : List Char) :
    (∃ k, k ≤ s.length ∧ s.drop k = L) ↔ ∃ t, s = t ++ L := by
  constructor
  · rintro ⟨k, hk, rfl⟩
    exact ⟨s.take k, (List.take_append_drop k s).symm⟩
  · rintro ⟨t, rfl⟩
    exact ⟨t.length, by simp, List.drop_left t L⟩

theorem endsWith_iff_append (L s : List Char) :
    startsWithChars L.reverse s.reverse = true ↔ ∃ t, s = t ++ L := by
  rw [startsWithChars_iff_append]
  constructor
  · rintro ⟨t, ht⟩
    refine ⟨t.reverse, ?_⟩
    have h2 := congrArg List.reverse ht
    simpa [List.reverse_append] using h2
  · rintro ⟨t, rfl⟩
    exact ⟨t.reverse, by simp [List.reverse_append]⟩

/-- Matching the fixed glob `*.xlsx` is exactly the literal suffix test. -/
theorem matchesGlob_xlsx (name : String) :
    matchesGlob ("*.xlsx") name = strEndsWith name (".xlsx") := by
  apply bool_eq_of_iff
  show globMatch (parseGlob ((("*.xlsx") : String).data)) name.data = true ↔ _
  rw [show parseGlob ((("*.xlsx") : String).data)
      = GlobTok.anySeq :: (((".xlsx") : String).data).map GlobTok.lit from rfl]
  show (List.range (name.data.length + 1)).any
      (fun k => globMatch ((((".xlsx") : String).data).map GlobTok.lit)
        (name.data.drop k)) = true ↔ _
  rw [anyRange_iff]
  have hout : strEndsWith name (".xlsx") = true
      ↔ ∃ t, name.data = t ++ ((".xlsx") : String).data :=
    endsWith_iff_append (((".xlsx") : String).data) name.data
  rw [hout, ← dropEx_iff_append]
  constructor
  · rintro ⟨k, hk, hm⟩
    exact ⟨k, hk, (globMatch_lits_iff _ _).1 hm⟩
  · rintro ⟨k, hk, hd⟩
    exact ⟨k, hk, (globMatch_lits_iff _ _).2 hd⟩

/-- With no (or an empty) pattern, `clear_cache` selects exactly the names
ending in `.xlsx`. -/
theorem clearSelect_none (name : String) :
    clearSelect none name = strEndsWith name (".xlsx") :=
  matchesGlob_xlsx name

theorem globFree_chars (p : String) (hfree : globFree p = true) :
    ∀ c ∈ p.data, isGlobSpecial c = false := by
  intro c hc
  cases h : isGlobSpecial c with
  | false => rfl
  | true =>
      exfalso
      have h2 : p.data.any isGlobSpecial = true := List.any_eq_true.2 ⟨c, hc, h⟩
      simp [globFree, h2] at hfree

theorem parseGlobAux_litFree :
    ∀ (L : List Char), (∀ c ∈ L, isGlobSpecial c = false) →
      ∀ fuel, L.length ≤ fuel → parseGlobAux fuel L = L.map GlobTok.lit := by
  intro L
  induction L with
  | nil =>
      intro _ fuel _
      cases fuel <;> rfl
  | cons c L2 ih =>
      intro hL fuel hf
      cases fuel with
      | zero => exact absurd hf (by simp)
      | succ f =>
          have hc := hL c (List.mem_cons_self c L2)
          simp only [isGlobSpecial, Bool.or_eq_false_iff, beq_eq_false_iff_ne,
            ne_eq] at hc
          rw [parseGlobAux, if_neg hc.1.1.1, if_neg hc.1.1.2, if_neg hc.1.2]
          rw [ih (fun x hx => hL x (List.mem_cons_of_mem c hx)) f
            (Nat.le_of_succ_le_succ hf)]
          rfl

theorem parseGlobAux_litFree_star :
    ∀ (L : List Char), (∀ c ∈ L, isGlobSpecial c = false) →
      ∀ fuel, L.length + 1 ≤ fuel →
        parseGlobAux fuel (L ++ ['*']) = L.map GlobTok.lit ++ [GlobTok.anySeq] := by
  intro L
  induction L with
  | nil =>
      intro _ fuel hf
      cases fuel with
      | zero => exact absurd hf (by simp)
      | succ f =>
          show parseGlobAux (f + 1) ['*'] = [GlobTok.anySeq]
          rw [parseGlobAux, if_pos rfl]
          cases f <;> rfl
  | cons c L2 ih =>
      intro hL fuel hf
      cases fuel with
      | zero => exact absurd hf (by simp)
      | succ f =>
          have hc := hL c (List.mem_cons_self c L2)
          simp only [isGlobSpecial, Bool.or_eq_false_iff, beq_eq_false_iff_ne,
            ne_eq] at hc
          show parseGlobAux (f + 1) (c :: (L2 ++ ['*'])) = _
          rw [parseGlobAux, if_neg hc.1.1.1, if_neg hc.1.1.2, if_neg hc.1.2]
          rw [ih (fun x hx => hL x (List.mem_cons_of_mem c hx)) f
            (Nat.le_of_succ_le_succ (by simpa using hf))]
          rfl

theorem parseGlob_starWrap (p : String) (hfree : globFree p = true) :
    parseGlob ((("*") ++ p ++ ("*")).data)
      = GlobTok.anySeq :: (p.data.map GlobTok.lit ++ [GlobTok.anySeq]) := by
  have hdata : ((("*") ++ p ++ ("*")).data) = '*' :: (p.data ++ ['*']) := by
    simp [String.data_append]
  rw [show parseGlob ((("*") ++ p ++ ("*")).data)
      = parseGlobAux ((("*") ++ p ++ ("*")).data).length ((("*") ++ p ++ ("*")).data)
      from rfl]
  rw [hdata, List.length_cons, parseGlobAux, if_pos rfl]
  rw [parseGlobAux_litFree_star p.data (globFree_chars p hfree)
    (p.data ++ ['*']).length (by simp)]

theorem hasDoubleStar_litFree_star :
    ∀ L : List Char, (∀ c ∈ L, isGlobSpecial c = false) →
      hasDoubleStar (L ++ ['*']) = false := by
  intro L
  induction L with
  | nil => intro _; rfl
  | cons c L2 ih =>
      intro hL
      have hc := hL c (List.mem_cons_self c L2)
      simp only [isGlobSpecial, Bool.or_eq_false_iff, beq_eq_false_iff_ne,
        ne_eq] at hc
      have hcb : (c == '*') = false := by
        simp [hc.1.1.1]
      cases L2 with
      | nil =>
          show hasDoubleStar [c, '*'] = false
          simp [hasDoubleStar, hcb]
      | cons c2 L3 =>
          have htail := ih (fun x hx => hL x (List.mem_cons_of_mem c hx))
          show hasDoubleStar (c :: c2 :: (L3 ++ ['*'])) = false
          rw [hasDoubleStar]
          simp only [List.cons_append] at htail
          simp [hcb, htail]

theorem globArg_valid (p : String) (hp : p ≠ "") (hfree : globFree p = true) :
    hasDoubleStar (globArg (some p)).data = false := by
  rw [show globArg (some p) = ("*") ++ p ++ ("*") from by simp [globArg, hp]]
  have hdata : ((("*") ++ p ++ ("*")).data) = '*' :: (p.data ++ ['*']) := by
    simp [String.data_append]
  rw [hdata]
  have hchars := globFree_chars p hfree
  cases hd : p.data with
  | nil => exact absurd hd (data_ne_nil_of_ne_empty p hp)
  | cons c rest =>
      rw [hd] at hchars
      have hc := hchars c (List.mem_cons_self c rest)
      simp only [isGlobSpecial, Bool.or_eq_false_iff, beq_eq_false_iff_ne,
        ne_eq] at hc
      have hcb : (c == '*') = false := by
        simp [hc.1.1.1]
      have htail := hasDoubleStar_litFree_star (c :: rest) hchars
      show hasDoubleStar ('*' :: (c :: rest ++ ['*'])) = false
      rw [List.cons_append, hasDoubleStar]
      simp only [List.cons_append] at htail
      simp [hcb, htail]

/-- For a non-empty pattern free of glob-special characters, `clear_cache`
selects exactly by literal substring containment. -/
theorem clearSelect_globFree (p : String) (name : String) (hp : p ≠ "")
    (hfree : globFree p = true) :
    clearSelect (some p) name = strContainsSub name p := by
  show matchesGlob (globArg (some p)) name = _
  rw [show globArg (some p) = ("*") ++ p ++ ("*") from by simp [globArg, hp]]
  show globMatch (parseGlob ((("*") ++ p ++ ("*")).data)) name.data = _
  rw [parseGlob_starWrap p hfree, globMatch_starWrap]
  rfl

/-- On a valid glob argument, `clear_cache` finishes the deletion loop:
it removes exactly the selected files whose unlink succeeds. -/
theorem clear_cache_valid (d : Dir) (pat : Option String) (u : String → Bool)
    (hok : hasDoubleStar (globArg pat).data = false) :
    clear_cache (some d) pat u
      = ClearOutcome.done
          (some (d.filter (fun e => !(clearSelect pat e.1 && u e.1)))) := by
  simp [clear_cache, hok]

/-- What every file of the directory maps to after `clear_cache`: a file
is gone iff it was selected for deletion and its unlink succeeded. -/
theorem clear_cache_lookup (d : Dir) (pat : Option String) (u : String → Bool)
    (name : String) (hok : hasDoubleStar (globArg pat).data = false) :
    lookupOptD (clear_cache (some d) pat u).dirOf name
      = if clearSelect pat name && u name then none else d.lookup name := by
  rw [clear_cache_valid d pat u hok]
  exact Dir.lookup_filterSel d (fun nm => clearSelect pat nm && u nm) name

/-- `list_cache_files` after `clear_cache` is the pre-deletion listing
with the deleted names filtered out. -/
theorem clear_cache_list (d : Dir) (pat : Option String) (u : String → Bool)
    (hok : hasDoubleStar (globArg pat).data = false) :
    list_cache_files (clear_cache (some d) pat u).dirOf
      = (list_cache_files (some d)).filter (fun n => !(clearSelect pat n && u n)) := by
  rw [clear_cache_valid d pat u hok]
  exact filter_map_fst_comm d (fun nm => clearSelect pat nm && u nm)
    (fun nm => matchesGlob ("*.xlsx") nm)

/-- C7 as stated is false: with pattern `"2024-01"`, `clear_cache` also
deletes `notes-2024-01.txt`, a file that is not a cached artifact (it does
not end in `.xlsx`), so not all non-artifact files are left intact. -/
theorem C7_counterexample :
    lookupOptD (clear_cache (some [(("notes-2024-01.txt"), FileData.raw)])
        (some ("2024-01")) (fun _ => true)).dirOf ("notes-2024-01.txt") = none
    ∧ strEndsWith ("notes-2024-01.txt") (".xlsx") = false := by
  exact ⟨by decide, by decide⟩

/-- C7 amended: with a non-empty pattern free of glob-special characters
(`*`, `?`, `[`, `/`), `clear_cache` does not raise and deletes exactly
the files — of any kind, not only cached artifacts — whose name contains
the pattern as a substring and whose unlink succeeds; each failing unlink
leaves only its own file behind; and a subsequent `list_cache_files`
shows exactly the pre-deletion listing minus the deleted names.
(Patterns with glob-special characters follow fnmatch semantics instead,
or raise when they put `**` into the glob argument.) -/
theorem C7_amended_clear_by_pattern (d : Dir) (p : String) (u : String → Bool)
    (name : String) (hp : p ≠ "") (hfree : globFree p = true) :
    (clear_cache (some d) (some p) u).didRaise = false
    ∧ lookupOptD (clear_cache (some d) (some p) u).dirOf name
      = (if strContainsSub name p && u name then none else d.lookup name)
    ∧ list_cache_files (clear_cache (some d) (some p) u).dirOf
      = (list_cache_files (some d)).filter
          (fun n => !(strContainsSub n p && u n)) := by
  have hok := globArg_valid p hp hfree
  have hsel : ∀ nm, clearSelect (some p) nm = strContainsSub nm p :=
    fun nm => clearSelect_globFree p nm hp hfree
  refine ⟨?_, ?_, ?_⟩
  · rw [clear_cache_valid d (some p) u hok]
    rfl
  · rw [clear_cache_lookup d (some p) u name hok, hsel name]
  · rw [clear_cache_list d (some p) u hok]
    simp only [hsel]

theorem C7_witness :
    (clear_cache (some [(("a-2024.txt"), FileData.raw)]) (some ("2024"))
        (fun _ => true)).didRaise = false
    ∧ lookupOptD (clear_cache (some [(("a-2024.txt"), FileData.raw)])
        (some ("2024")) (fun _ => true)).dirOf ("a-2024.txt")
      = (if strContainsSub ("a-2024.txt") ("2024")
            && (fun (_ : String) => true) ("a-2024.txt")
          then none else Dir.lookup [(("a-2024.txt"), FileData.raw)] ("a-2024.txt"))
    ∧ list_cache_files (clear_cache (some [(("a-2024.txt"), FileData.raw)])
        (some ("2024")) (fun _ => true)).dirOf
      = (list_cache_files (some [(("a-2024.txt"), FileData.raw)])).filter
          (fun n => !(strContainsSub n ("2024") && (fun (_ : String) => true) n)) :=
  C7_amended_clear_by_pattern [(("a-2024.txt"), FileData.raw)] ("2024")
    (fun _ => true) ("a-2024.txt") (by decide) (by decide)

/-- C10 as stated is false: `clear_cache` selects by glob, not by literal
substring — at pattern `a*b` it deletes `acb.xlsx` (fnmatch `*a*b*`
matches it) although that name does not contain `a*b`; and at pattern `*`
the glob argument `***` contains `**`, so the call raises an uncaught
`ValueError` on an existing directory instead of selecting anything. -/
theorem C10_counterexample :
    lookupOptD (clear_cache (some [(("acb.xlsx"), FileData.raw)])
        (some ("a*b")) (fun _ => true)).dirOf ("acb.xlsx") = none
    ∧ strContainsSub ("acb.xlsx") ("a*b") = false
    ∧ clear_cache (some [(("x.xlsx"), FileData.raw)]) (some ("*")) (fun _ => true)
      = ClearOutcome.raised (some [(("x.xlsx"), FileData.raw)]) := by
  exact ⟨by decide, by decide, by decide⟩

/-- C10 amended: which files `clear_cache` deletes depends on the
pattern — with no pattern only names ending in `.xlsx` are deleted, while
with a non-empty pattern free of glob-special characters every file whose
name contains the pattern is deleted regardless of extension
(non-artifact files included); patterns with glob-special characters
follow fnmatch wildcard semantics instead, or raise for `**`. -/
theorem C10_selection_depends_on_pattern (d : Dir) (u : String → Bool)
    (name : String) (p : String) (hp : p ≠ "") (hfree : globFree p = true) :
    lookupOptD (clear_cache (some d) none u).dirOf name
      = (if strEndsWith name (".xlsx") && u name then none else d.lookup name)
    ∧ lookupOptD (clear_cache (some d) (some p) u).dirOf name
      = (if strContainsSub name p && u name then none else d.lookup name) := by
  constructor
  · rw [clear_cache_lookup d none u name (by decide), clearSelect_none name]
  · rw [clear_cache_lookup d (some p) u name (globArg_valid p hp hfree),
      clearSelect_globFree p name hp hfree]

theorem C10_witness :
    lookupOptD (clear_cache (some [(("b-2024.txt"), FileData.raw)]) none
        (fun _ => true)).dirOf ("b-2024.txt")
      = (if strEndsWith ("b-2024.txt") (".xlsx")
            && (fun (_ : String) => true) ("b-2024.txt")
          then none else Dir.lookup [(("b-2024.txt"), FileData.raw)] ("b-2024.txt"))
    ∧ lookupOptD (clear_cache (some [(("b-2024.txt"), FileData.raw)])
        (some ("2024")) (fun _ => true)).dirOf ("b-2024.txt")
      = (if strContainsSub ("b-2024.txt") ("2024")
            && (fun (_ : String) => true) ("b-2024.txt")
          then none else Dir.lookup [(("b-2024.txt"), FileData.raw)] ("b-2024.txt")) :=
  C10_selection_depends_on_pattern [(("b-2024.txt"), FileData.raw)] (fun _ => true)
    ("b-2024.txt") ("2024") (by decide) (by decide)
